import Mathlib

/-!
Verification development for the sport-agent backend
(`backend/main.py`, `backend/scheduler.py`, `backend/storage.py`).

Python strings are embedded as `List Char`; Python `None`-able values as
`Option`; external collaborators (LLM provider, sports data APIs, web
search, the IANA timezone database, the wall clock) as explicit oracle
parameters.  Each definition mirrors the corresponding Python function.
-/

set_option maxRecDepth 10000

namespace SportAgent

/-- Python strings, embedded as lists of characters. -/
abbrev Str := List Char

/-- The ASCII whitespace characters recognized by Python's `str.split()`
    with no separator argument. -/
def pyIsSpace (c : Char) : Bool :=
  c == ' ' || c == '\t' || c == '\n' || c == '\r' || c == '\x0b' || c == '\x0c'

/-- Helper for `wsplit`: `c` is a non-space character being prepended to the
    already-split tail `r` of the remaining input `cs`. -/
def wcons (c : Char) (cs : Str) (r : List Str) : List Str :=
  match cs with
  | [] => [[c]]
  | d :: _ =>
    if pyIsSpace d then [c] :: r
    else
      match r with
      | w :: ws => (c :: w) :: ws
      | [] => [[c]]

/-- Python `text.split()`: the maximal whitespace-free nonempty words. -/
def wsplit : Str → List Str
  | [] => []
  | c :: cs => if pyIsSpace c then wsplit cs else wcons c cs (wsplit cs)

/-- Python `" ".join(ws)`. -/
def joinSpace : List Str → Str
  | [] => []
  | [w] => w
  | w :: ws => w ++ ' ' :: joinSpace ws

/-- The character set of the `rstrip(",.;- ")` call in `_compact`. -/
def stripSet : Str := [',', '.', ';', '-', ' ']

/-- Python `l.rstrip(strip)`: remove from the right all characters in `strip`. -/
def pyRstrip (strip : Str) (l : Str) : Str :=
  (l.reverse.dropWhile (fun c => strip.contains c)).reverse

/-- Index of the last `' '` in `l`, if any. -/
def rfindSp : Str → Option Nat
  | [] => none
  | c :: cs =>
    match rfindSp cs with
    | some i => some (i + 1)
    | none => if c == ' ' then some 0 else none

/-- Python `l.rfind(" ")`: index of the last space, `-1` when none. -/
def pyRfindSpace (l : Str) : Int :=
  match rfindSp l with
  | none => -1
  | some i => (i : Int)

/-- `backend/main.py` `_compact(text, limit=200)`: collapse whitespace and
    truncate to at most `limit` characters, cutting at the last space before
    the limit when one exists, then stripping trailing `",.;- "`. -/
def _compact (text : Str) (limit : Nat := 200) : Str :=
  if text = [] then []
  else
    let cleaned := joinSpace (wsplit text)
    if cleaned.length ≤ limit then cleaned
    else
      let truncated := cleaned.take limit
      let lastSpace := pyRfindSpace truncated
      let truncated2 := if 0 < lastSpace then truncated.take lastSpace.toNat else truncated
      pyRstrip stripSet truncated2

/-- "`a` is a prefix of `b`" spelled out. -/
def isPre (a b : Str) : Prop := ∃ t, a ++ t = b

/-- A list of words fit to be re-joined: each nonempty and whitespace-free. -/
def goodWords (ws : List Str) : Prop :=
  ∀ w ∈ ws, w ≠ [] ∧ ∀ c ∈ w, pyIsSpace c = false

theorem wcons_ne_nil (c : Char) (cs : Str) (r : List Str) : wcons c cs r ≠ [] := by
  unfold wcons
  cases cs with
  | nil => simp
  | cons d ds =>
    by_cases hd : pyIsSpace d
    · simp [hd]
    · cases r with
      | nil => simp [hd]
      | cons w ws => simp [hd]

theorem wsplit_good : ∀ s : Str, goodWords (wsplit s) := by
  intro s
  induction s with
  | nil => intro w hw; simp [wsplit] at hw
  | cons c cs ih =>
    by_cases hc : pyIsSpace c
    · simpa [wsplit, hc] using ih
    · simp only [wsplit, hc, if_false, Bool.false_eq_true]
      unfold wcons
      cases cs with
      | nil =>
        intro w hw
        simp at hw
        subst hw
        exact ⟨by simp, by simpa using hc⟩
      | cons d ds =>
        by_cases hd : pyIsSpace d
        · simp only [hd, if_true]
          intro w hw
          rcases List.mem_cons.mp hw with h | h
          · subst h; exact ⟨by simp, by simpa using hc⟩
          · exact ih w h
        · simp only [hd, if_false, Bool.false_eq_true]
          cases hr : wsplit (d :: ds) with
          | nil =>
            intro w hw
            simp at hw
            subst hw
            exact ⟨by simp, by simpa using hc⟩
          | cons w0 ws0 =>
            intro w hw
            rcases List.mem_cons.mp hw with h | h
            · subst h
              have h0 := ih w0 (by rw [hr]; exact List.mem_cons_self _ _)
              refine ⟨by simp, ?_⟩
              intro x hx
              rcases List.mem_cons.mp hx with h' | h'
              · subst h'; simpa using hc
              · exact h0.2 x h'
            · exact ih w (by rw [hr]; exact List.mem_cons_of_mem _ h)

theorem wsplit_cons_nonspace {c : Char} (cs : Str) (hc : pyIsSpace c = false) :
    wsplit (c :: cs) = wcons c cs (wsplit cs) := by
  simp [wsplit, hc]

theorem wsplit_cons_ne_nil {c : Char} (cs : Str) (hc : pyIsSpace c = false) :
    wsplit (c :: cs) ≠ [] := by
  rw [wsplit_cons_nonspace cs hc]
  exact wcons_ne_nil c cs (wsplit cs)

theorem wsplit_word : ∀ w : Str, w ≠ [] → (∀ c ∈ w, pyIsSpace c = false) →
    wsplit w = [w] := by
  intro w
  induction w with
  | nil => intro h; exact absurd rfl h
  | cons c w' ih =>
    intro _ hsf
    have hc : pyIsSpace c = false := hsf c (List.mem_cons_self _ _)
    simp only [wsplit, hc, if_false, Bool.false_eq_true]
    cases w' with
    | nil => simp [wcons]
    | cons d ds =>
      have hd : pyIsSpace d = false := hsf d (by simp)
      have hW : wsplit (d :: ds) = [d :: ds] :=
        ih (by simp) (fun x hx => hsf x (List.mem_cons_of_mem _ hx))
      simp [wcons, hd, hW]

theorem wsplit_word_append : ∀ (w t : Str), w ≠ [] → (∀ c ∈ w, pyIsSpace c = false) →
    wsplit (w ++ ' ' :: t) = w :: wsplit t := by
  intro w
  induction w with
  | nil => intro t h; exact absurd rfl h
  | cons c w' ih =>
    intro t _ hsf
    have hc : pyIsSpace c = false := hsf c (List.mem_cons_self _ _)
    cases w' with
    | nil =>
      have hsp : pyIsSpace ' ' = true := by decide
      simp [wsplit, wcons, hc, hsp]
    | cons d ds =>
      have hd : pyIsSpace d = false := hsf d (by simp)
      have hW : wsplit (d :: (ds ++ ' ' :: t)) = (d :: ds) :: wsplit t := by
        have := ih t (by simp) (fun x hx => hsf x (List.mem_cons_of_mem _ hx))
        simpa using this
      have hshape : (c :: d :: ds) ++ ' ' :: t = c :: (d :: (ds ++ ' ' :: t)) := by simp
      rw [hshape, wsplit_cons_nonspace _ hc, hW]
      simp [wcons, hd]

theorem joinSpace_cons_of_ne_nil {w : Str} {ws : List Str} (h : ws ≠ []) :
    joinSpace (w :: ws) = w ++ ' ' :: joinSpace ws := by
  cases ws with
  | nil => exact absurd rfl h
  | cons x xs => rfl

theorem goodWords_tail {w : Str} {ws : List Str} (h : goodWords (w :: ws)) :
    goodWords ws := fun x hx => h x (List.mem_cons_of_mem _ hx)

theorem goodWords_head {w : Str} {ws : List Str} (h : goodWords (w :: ws)) :
    w ≠ [] ∧ ∀ c ∈ w, pyIsSpace c = false := h w (List.mem_cons_self _ _)

theorem joinSpace_ne_nil : ∀ {ws : List Str}, goodWords ws → ws ≠ [] →
    joinSpace ws ≠ [] := by
  intro ws h hne
  cases ws with
  | nil => exact absurd rfl hne
  | cons w ws' =>
    cases ws' with
    | nil => simpa [joinSpace] using (goodWords_head h).1
    | cons x xs =>
      rw [joinSpace_cons_of_ne_nil (by simp)]
      simp

theorem wsplit_joinSpace : ∀ (ws : List Str), goodWords ws →
    wsplit (joinSpace ws) = ws := by
  intro ws
  induction ws with
  | nil => intro _; rfl
  | cons w ws' ih =>
    intro h
    cases ws' with
    | nil =>
      simpa [joinSpace] using wsplit_word w (goodWords_head h).1 (goodWords_head h).2
    | cons x xs =>
      rw [joinSpace_cons_of_ne_nil (by simp)]
      rw [wsplit_word_append w _ (goodWords_head h).1 (goodWords_head h).2]
      rw [ih (goodWords_tail h)]

theorem joinSpace_head_nonspace : ∀ {ws : List Str}, goodWords ws →
    ∀ {c : Char} {cs : Str}, joinSpace ws = c :: cs → pyIsSpace c = false := by
  intro ws h c cs he
  cases ws with
  | nil => simp [joinSpace] at he
  | cons w ws' =>
    have hw := goodWords_head h
    cases w with
    | nil => exact absurd rfl hw.1
    | cons a w' =>
      have : a = c := by
        cases ws' with
        | nil => simpa [joinSpace] using congrArg List.head? he
        | cons x xs =>
          rw [joinSpace_cons_of_ne_nil (by simp)] at he
          simpa using congrArg List.head? he
      rw [← this]
      exact hw.2 a (List.mem_cons_self _ _)

theorem joinSpace_getLast_ne_space : ∀ (ws : List Str), goodWords ws →
    joinSpace ws = [] ∨ (joinSpace ws).getLast? ≠ some ' ' := by
  intro ws
  induction ws with
  | nil => exact fun _ => Or.inl rfl
  | cons w ws' ih =>
    intro h
    cases ws' with
    | nil =>
      right
      intro hl
      have : (' ' : Char) ∈ w := by
        have := @List.mem_of_mem_getLast? _ (joinSpace [w]) _ hl
        simpa [joinSpace] using this
      have := (goodWords_head h).2 ' ' this
      simp [pyIsSpace] at this
    | cons x xs =>
      right
      rw [joinSpace_cons_of_ne_nil (by simp)]
      have hJ : joinSpace (x :: xs) ≠ [] := joinSpace_ne_nil (goodWords_tail h) (by simp)
      rcases ih (goodWords_tail h) with h0 | h0
      · exact absurd h0 hJ
      · rw [@List.getLast?_append_of_ne_nil _ w _ (by simp)]
        rw [show ' ' :: joinSpace (x :: xs) = [' '] ++ joinSpace (x :: xs) by rfl]
        rw [@List.getLast?_append_of_ne_nil _ [' '] _ hJ]
        exact h0

theorem isPre_refl (l : Str) : isPre l l := ⟨[], List.append_nil l⟩

theorem isPre_trans {a b c : Str} (h1 : isPre a b) (h2 : isPre b c) : isPre a c := by
  obtain ⟨t1, ht1⟩ := h1
  obtain ⟨t2, ht2⟩ := h2
  exact ⟨t1 ++ t2, by rw [← List.append_assoc, ht1, ht2]⟩

theorem isPre_take (n : Nat) (l : Str) : isPre (l.take n) l :=
  ⟨l.drop n, List.take_append_drop n l⟩

theorem isPre_nil_right {a : Str} (h : isPre a []) : a = [] := by
  obtain ⟨t, ht⟩ := h
  exact (List.append_eq_nil.mp ht).1

theorem isPre_length_le {a b : Str} (h : isPre a b) : a.length ≤ b.length := by
  obtain ⟨t, ht⟩ := h
  have := congrArg List.length ht
  simp at this
  omega

theorem isPre_mem {a b : Str} (h : isPre a b) {c : Char} (hc : c ∈ a) : c ∈ b := by
  obtain ⟨t, ht⟩ := h
  rw [← ht]
  exact List.mem_append_left t hc

theorem pyRstrip_isPre (S l : Str) : isPre (pyRstrip S l) l := by
  refine ⟨(l.reverse.takeWhile (fun c => S.contains c)).reverse, ?_⟩
  unfold pyRstrip
  rw [← List.reverse_append, List.takeWhile_append_dropWhile, List.reverse_reverse]

theorem head?_dropWhile_false {p : Char → Bool} :
    ∀ (l : Str) {c : Char}, (l.dropWhile p).head? = some c → p c = false := by
  intro l
  induction l with
  | nil => intro c h; simp [List.dropWhile] at h
  | cons a as ih =>
    intro c h
    by_cases ha : p a
    · rw [List.dropWhile_cons_of_pos ha] at h
      exact ih h
    · rw [List.dropWhile_cons_of_neg ha] at h
      simp at h
      rw [← h]
      simpa using ha

theorem pyRstrip_getLast_not_mem (S l : Str) {c : Char}
    (h : (pyRstrip S l).getLast? = some c) : S.contains c = false := by
  unfold pyRstrip at h
  rw [List.getLast?_reverse] at h
  exact head?_dropWhile_false _ h

theorem pyRstrip_append_strip {S : Str} {c : Char} (hc : S.contains c = true) (l : Str) :
    pyRstrip S (l ++ [c]) = pyRstrip S l := by
  unfold pyRstrip
  rw [List.reverse_append]
  have hc' : decide (c ∈ S) = true := by simpa using hc
  simp [List.dropWhile, hc']

theorem pyRstrip_append_replicate_space :
    ∀ (j : Nat) (l : Str), pyRstrip stripSet (l ++ List.replicate j ' ') = pyRstrip stripSet l := by
  intro j
  induction j with
  | zero => intro l; simp
  | succ n ih =>
    intro l
    rw [List.replicate_succ' n ' ', ← List.append_assoc]
    rw [pyRstrip_append_strip (by decide) (l ++ List.replicate n ' ')]
    exact ih l

theorem pyRstrip_length_le (S l : Str) : (pyRstrip S l).length ≤ l.length :=
  isPre_length_le (pyRstrip_isPre S l)

theorem rfindSp_none_no_space : ∀ {l : Str}, rfindSp l = none → ∀ c ∈ l, c ≠ ' ' := by
  intro l
  induction l with
  | nil => intro _ c hc; simp at hc
  | cons a as ih =>
    intro h c hc
    unfold rfindSp at h
    cases hr : rfindSp as with
    | some i => rw [hr] at h; simp at h
    | none =>
      rw [hr] at h
      by_cases ha : a == ' '
      · simp [ha] at h
      · rcases List.mem_cons.mp hc with h' | h'
        · subst h'; simpa using ha
        · exact ih hr c h'

theorem rfindSp_some_decomp : ∀ {l : Str} {i : Nat}, rfindSp l = some i →
    ∃ p q, l = p ++ ' ' :: q ∧ p.length = i ∧ ∀ c ∈ q, c ≠ ' ' := by
  intro l
  induction l with
  | nil => intro i h; simp [rfindSp] at h
  | cons a as ih =>
    intro i h
    unfold rfindSp at h
    cases hr : rfindSp as with
    | some n =>
      rw [hr] at h
      simp at h
      obtain ⟨p, q, hpq, hlen, hq⟩ := ih hr
      refine ⟨a :: p, q, ?_, ?_, hq⟩
      · rw [hpq]; rfl
      · simp [hlen, ← h]
    | none =>
      rw [hr] at h
      by_cases ha : a == ' '
      · simp [ha] at h
        refine ⟨[], as, ?_, by simp [← h], rfindSp_none_no_space hr⟩
        have : a = ' ' := by simpa using ha
        rw [this]
        rfl
      · simp [ha] at h

theorem normalize_fix_word {w : Str} (hw : w ≠ [] ∧ ∀ c ∈ w, pyIsSpace c = false)
    {r : Str} (hpre : isPre r w) : joinSpace (wsplit r) = r := by
  cases hr : r with
  | nil => rfl
  | cons a as =>
    rw [← hr]
    have hsf : ∀ c ∈ r, pyIsSpace c = false := fun c hc => hw.2 c (isPre_mem hpre hc)
    rw [wsplit_word r (by rw [hr]; simp) hsf]
    rfl

/-- A prefix of a whitespace-normalized string that does not end in a space is
    itself normalized: re-splitting and re-joining it is the identity. -/
theorem normalize_fix : ∀ (ws : List Str), goodWords ws →
    ∀ r : Str, isPre r (joinSpace ws) → r.getLast? ≠ some ' ' →
    joinSpace (wsplit r) = r := by
  intro ws
  induction ws with
  | nil =>
    intro _ r hpre _
    have : r = [] := isPre_nil_right (by simpa [joinSpace] using hpre)
    rw [this]
    rfl
  | cons w ws' ih =>
    intro h r hpre hlast
    cases ws' with
    | nil => exact normalize_fix_word (goodWords_head h) (by simpa [joinSpace] using hpre)
    | cons x xs =>
      rw [joinSpace_cons_of_ne_nil (by simp)] at hpre
      obtain ⟨t, ht⟩ := hpre
      rcases List.append_eq_append_iff.mp ht with ⟨a', ha1, _⟩ | ⟨c', hc1, hc2⟩
      · exact normalize_fix_word (goodWords_head h) ⟨a', ha1.symm⟩
      · cases c' with
        | nil =>
          rw [List.append_nil] at hc1
          rw [hc1]
          exact normalize_fix_word (goodWords_head h) (isPre_refl w)
        | cons b u =>
          have hb : b = ' ' := by
            have := congrArg List.head? hc2
            simpa using this.symm
          subst hb
          have hJ : joinSpace (x :: xs) = u ++ t := by
            have := congrArg List.tail hc2
            simpa using this
          cases hu : u with
          | nil =>
            exfalso
            apply hlast
            rw [hc1, hu]
            rw [@List.getLast?_append_of_ne_nil _ w _ (by simp)]
            rfl
          | cons e u' =>
            have hpre_u : isPre u (joinSpace (x :: xs)) := ⟨t, hJ.symm⟩
            have he : pyIsSpace e = false := by
              have : joinSpace (x :: xs) = e :: (u' ++ t) := by
                rw [hJ, hu]; rfl
              exact joinSpace_head_nonspace (goodWords_tail h) this
            have hlast_u : u.getLast? ≠ some ' ' := by
              intro hbad
              apply hlast
              rw [hc1, show w ++ ' ' :: u = (w ++ [' ']) ++ u by simp]
              rw [@List.getLast?_append_of_ne_nil _ (w ++ [' ']) _ (by rw [hu]; simp)]
              exact hbad
            have hIH : joinSpace (wsplit u) = u := ih (goodWords_tail h) u hpre_u hlast_u
            have hWne : wsplit u ≠ [] := by
              rw [hu]
              exact wsplit_cons_ne_nil u' he
            rw [hc1]
            rw [wsplit_word_append w u (goodWords_head h).1 (goodWords_head h).2]
            rw [joinSpace_cons_of_ne_nil hWne, hIH]

/-- If the whitespace-normalized join of good words decomposes as
    `p ++ ' ' :: t`, then `p` is the join of the first `k` words followed by
    some run of trailing spaces. -/
theorem joinSpace_space_decomp : ∀ (ws : List Str), goodWords ws →
    ∀ p t : Str, joinSpace ws = p ++ ' ' :: t →
    ∃ k, k ≤ ws.length ∧ ∃ j, p = joinSpace (ws.take k) ++ List.replicate j ' ' := by
  intro ws
  induction ws with
  | nil =>
    intro _ p t he
    exfalso
    have := congrArg List.length he
    simp [joinSpace] at this
    omega
  | cons w ws' ih =>
    intro h p t he
    cases ws' with
    | nil =>
      exfalso
      have : (' ' : Char) ∈ w := by
        have : (' ' : Char) ∈ joinSpace [w] := by
          rw [he]
          exact List.mem_append_right p (List.mem_cons_self _ _)
        simpa [joinSpace] using this
      have := (goodWords_head h).2 ' ' this
      simp [pyIsSpace] at this
    | cons x xs =>
      rw [joinSpace_cons_of_ne_nil (by simp)] at he
      rcases List.append_eq_append_iff.mp he.symm with ⟨a', ha1, ha2⟩ | ⟨c', hc1, hc2⟩
      · -- w = p ++ a'  and  ' ' :: t = a' ++ ' ' :: joinSpace (x :: xs)
        cases a' with
        | nil =>
          rw [List.append_nil] at ha1
          refine ⟨1, by simp, 0, ?_⟩
          simp [joinSpace, ← ha1]
        | cons b a'' =>
          exfalso
          have hb : b = ' ' := by
            have := congrArg List.head? ha2
            simpa using this.symm
          subst hb
          have : (' ' : Char) ∈ w := by
            rw [ha1]
            exact List.mem_append_right p (List.mem_cons_self _ _)
          have := (goodWords_head h).2 ' ' this
          simp [pyIsSpace] at this
      · -- p = w ++ c'  and  ' ' :: joinSpace (x :: xs) = c' ++ ' ' :: t
        cases c' with
        | nil =>
          rw [List.append_nil] at hc1
          refine ⟨1, by simp, 0, ?_⟩
          simp [joinSpace, hc1]
        | cons b c'' =>
          have hb : b = ' ' := by
            have := congrArg List.head? hc2
            simpa using this.symm
          subst hb
          have hJ : joinSpace (x :: xs) = c'' ++ ' ' :: t := by
            have := congrArg List.tail hc2
            simpa using this
          obtain ⟨k, hk, j, hjj⟩ := ih (goodWords_tail h) c'' t hJ
          cases k with
          | zero =>
            refine ⟨1, by simp, j + 1, ?_⟩
            rw [hc1, hjj]
            simp [joinSpace, List.replicate_succ]
          | succ k' =>
            refine ⟨k' + 2, by simpa using Nat.succ_le_succ hk, j, ?_⟩
            have htk : (x :: xs).take (k' + 1) ≠ [] := by simp
            rw [hc1, hjj]
            rw [show (w :: x :: xs).take (k' + 2) = w :: (x :: xs).take (k' + 1) by rfl]
            rw [joinSpace_cons_of_ne_nil htk]
            simp

theorem _compact_nil (limit : Nat) : _compact [] limit = [] := by
  simp [_compact]

theorem _compact_small {text : Str} {limit : Nat} (h1 : text ≠ [])
    (h2 : (joinSpace (wsplit text)).length ≤ limit) :
    _compact text limit = joinSpace (wsplit text) := by
  simp [_compact, h1, h2]

theorem _compact_big {text : Str} {limit : Nat} (h1 : text ≠ [])
    (h2 : ¬ (joinSpace (wsplit text)).length ≤ limit) :
    _compact text limit =
      pyRstrip stripSet
        (if 0 < pyRfindSpace ((joinSpace (wsplit text)).take limit) then
          ((joinSpace (wsplit text)).take limit).take
            (pyRfindSpace ((joinSpace (wsplit text)).take limit)).toNat
        else (joinSpace (wsplit text)).take limit) := by
  simp [_compact, h1, h2]

theorem _compact_length_le (text : Str) (limit : Nat) :
    (_compact text limit).length ≤ limit := by
  by_cases h1 : text = []
  · rw [h1, _compact_nil]; simp
  · by_cases h2 : (joinSpace (wsplit text)).length ≤ limit
    · rw [_compact_small h1 h2]; exact h2
    · rw [_compact_big h1 h2]
      refine le_trans (pyRstrip_length_le _ _) ?_
      by_cases h3 : 0 < pyRfindSpace ((joinSpace (wsplit text)).take limit)
      · rw [if_pos h3]
        simp only [List.length_take]
        omega
      · rw [if_neg h3]
        simp only [List.length_take]
        omega

theorem _compact_isPre_normalize (s : Str) (limit : Nat) :
    isPre (_compact s limit) (joinSpace (wsplit s)) := by
  by_cases h1 : s = []
  · rw [h1, _compact_nil]
    exact ⟨joinSpace (wsplit []), rfl⟩
  · by_cases h2 : (joinSpace (wsplit s)).length ≤ limit
    · rw [_compact_small h1 h2]
      exact isPre_refl _
    · rw [_compact_big h1 h2]
      refine isPre_trans (pyRstrip_isPre _ _) ?_
      by_cases h3 : 0 < pyRfindSpace ((joinSpace (wsplit s)).take limit)
      · rw [if_pos h3]
        exact isPre_trans (isPre_take _ _) (isPre_take _ _)
      · rw [if_neg h3]
        exact isPre_take _ _

theorem _compact_getLast_ne_space (s : Str) (limit : Nat) :
    _compact s limit = [] ∨ (_compact s limit).getLast? ≠ some ' ' := by
  by_cases h1 : s = []
  · left; rw [h1, _compact_nil]
  · by_cases h2 : (joinSpace (wsplit s)).length ≤ limit
    · rw [_compact_small h1 h2]
      exact joinSpace_getLast_ne_space (wsplit s) (wsplit_good s)
    · right
      rw [_compact_big h1 h2]
      intro hbad
      have := pyRstrip_getLast_not_mem stripSet _ hbad
      simp [stripSet] at this

theorem _compact_fixpoint {r : Str} {limit : Nat}
    (hfix : joinSpace (wsplit r) = r) (hlen : r.length ≤ limit) :
    _compact r limit = r := by
  by_cases hr : r = []
  · rw [hr]; exact _compact_nil limit
  · rw [_compact_small hr (by rw [hfix]; exact hlen), hfix]

/-- `_compact` is idempotent for every input string and every limit. -/
theorem _compact_idem (s : Str) (limit : Nat) :
    _compact (_compact s limit) limit = _compact s limit := by
  rcases _compact_getLast_ne_space s limit with hnil | hlast
  · rw [hnil]; exact _compact_nil limit
  · refine _compact_fixpoint ?_ (_compact_length_le s limit)
    exact normalize_fix (wsplit s) (wsplit_good s) _ (_compact_isPre_normalize s limit) hlast

/-- `_compact s limit` is a word-boundary truncation: it is either the whole
    whitespace-collapsed text, or the join of the first `k` collapsed words
    with trailing `",.;- "` stripped. -/
def wordBoundaryTruncB (s : Str) (limit : Nat) : Bool :=
  (_compact s limit == joinSpace (wsplit s)) ||
  (List.range ((wsplit s).length + 1)).any
    (fun k => _compact s limit == pyRstrip stripSet (joinSpace ((wsplit s).take k)))

theorem pyRfindSpace_pos {t : Str} (h : 0 < pyRfindSpace t) :
    ∃ i, rfindSp t = some i ∧ 0 < i := by
  unfold pyRfindSpace at h
  cases hf : rfindSp t with
  | none =>
    rw [hf] at h
    exact absurd h (by decide)
  | some i =>
    rw [hf] at h
    have h' : (0 : Int) < (i : Int) := h
    exact ⟨i, rfl, by exact_mod_cast h'⟩

theorem _compact_word_boundary (s : Str) (limit : Nat)
    (h : (joinSpace (wsplit s)).length ≤ limit ∨
         0 < pyRfindSpace ((joinSpace (wsplit s)).take limit)) :
    wordBoundaryTruncB s limit = true := by
  by_cases h1 : s = []
  · unfold wordBoundaryTruncB
    rw [h1, _compact_nil]
    simp [wsplit, joinSpace]
  · by_cases h2 : (joinSpace (wsplit s)).length ≤ limit
    · unfold wordBoundaryTruncB
      rw [_compact_small h1 h2]
      simp
    · have h3 : 0 < pyRfindSpace ((joinSpace (wsplit s)).take limit) := h.resolve_left h2
      obtain ⟨i, hfs, hi⟩ := pyRfindSpace_pos h3
      have hceq : _compact s limit =
          pyRstrip stripSet (((joinSpace (wsplit s)).take limit).take i) := by
        rw [_compact_big h1 h2, if_pos h3]
        unfold pyRfindSpace
        rw [hfs]
        simp
      obtain ⟨p, q, hpq, hplen, _⟩ := rfindSp_some_decomp hfs
      have htake : ((joinSpace (wsplit s)).take limit).take i = p := by
        rw [hpq, ← hplen]
        exact List.take_left p (' ' :: q)
      have hdecomp : joinSpace (wsplit s) = p ++ ' ' :: (q ++ (joinSpace (wsplit s)).drop limit) := by
        conv_lhs => rw [← List.take_append_drop limit (joinSpace (wsplit s))]
        rw [hpq]
        simp
      obtain ⟨k, hk, j, hpj⟩ :=
        joinSpace_space_decomp (wsplit s) (wsplit_good s) p _ hdecomp
      have hfinal : _compact s limit = pyRstrip stripSet (joinSpace ((wsplit s).take k)) := by
        rw [hceq, htake, hpj]
        exact pyRstrip_append_replicate_space j _
      unfold wordBoundaryTruncB
      apply Bool.or_eq_true_iff.mpr
      right
      apply List.any_eq_true.mpr
      refine ⟨k, List.mem_range.mpr (by omega), ?_⟩
      exact beq_iff_eq.mpr hfinal

/-! ## Further Python string helpers -/

/-- Python `s.lower()` (ASCII case folding). -/
def pyLower (s : Str) : Str := s.map Char.toLower

/-- Python `s.strip()`. -/
def pyStrip (s : Str) : Str :=
  ((s.dropWhile pyIsSpace).reverse.dropWhile pyIsSpace).reverse

/-- `pat` occurs at the start of the second argument. -/
def isPreB : Str → Str → Bool
  | [], _ => true
  | _ :: _, [] => false
  | a :: as, b :: bs => a == b && isPreB as bs

/-- Python `pat in s`: `pat` is a contiguous substring of `s`. -/
def isSub (pat : Str) : Str → Bool
  | [] => pat.isEmpty
  | s@(_ :: rest) => isPreB pat s || isSub pat rest

/-- Python `s.split(sep)` for a one-character separator: keeps empty chunks. -/
def splitOnCh (sep : Char) : Str → List Str
  | [] => [[]]
  | c :: cs =>
    let r := splitOnCh sep cs
    if c == sep then [] :: r
    else
      match r with
      | w :: ws => (c :: w) :: ws
      | [] => [[c]]

def digitsToNat (ds : Str) : Nat := ds.foldl (fun n c => n * 10 + (c.toNat - 48)) 0

/-- Python `int(s)`: optional surrounding whitespace, optional sign, digits;
    raises (`none`) otherwise. -/
def pyInt (s : Str) : Option Int :=
  match pyStrip s with
  | '-' :: ds =>
    if ds ≠ [] ∧ ds.all Char.isDigit then some (-(digitsToNat ds : Int)) else none
  | '+' :: ds =>
    if ds ≠ [] ∧ ds.all Char.isDigit then some ((digitsToNat ds : Int)) else none
  | ds =>
    if ds ≠ [] ∧ ds.all Char.isDigit then some ((digitsToNat ds : Int)) else none

/-- Python `", ".join(l)`. -/
def joinComma (l : List Str) : Str := List.intercalate ", ".toList l

/-- Python `"; ".join(l)`. -/
def joinSemicolon (l : List Str) : Str := List.intercalate "; ".toList l

/-- Python `". ".join(l)` (used with a leading dot: `'. '.join`). -/
def joinDotSpace (l : List Str) : Str := List.intercalate ". ".toList l

/-- Python `str(i)` for an int. -/
def intStr (i : Int) : Str := (toString i).toList

/-! ## Sport classification (`main.py` `_classify_sport`) -/

def football_keywords : List Str :=
  (["FC", "United", "City", "Real", "Barcelona", "Premier League",
    "La Liga", "Serie A", "Bundesliga", "Champions League", "Brasileirão",
    "Brasileirao", "Palmeiras", "Flamengo", "Corinthians", "São Paulo",
    "Sao Paulo", "Santos", "Athletico", "Internacional", "Grêmio"]).map String.toList

def tennis_keywords : List Str :=
  (["ATP", "WTA", "Grand Slam", "Wimbledon", "US Open", "French Open",
    "Australian Open", "Roland Garros", "Tennis"]).map String.toList

def f1_keywords : List Str :=
  (["Formula", "F1", "Grand Prix", "Ferrari", "Mercedes", "Red Bull Racing",
    "McLaren", "Verstappen", "Hamilton", "Leclerc"]).map String.toList

structure SportBuckets where
  football : List Str
  tennis : List Str
  f1 : List Str
deriving DecidableEq

/-- `any(kw.lower() in item_lower for kw in kws)`. -/
def keywordMatch (kws : List Str) (item_lower : Str) : Bool :=
  kws.any (fun kw => isSub (pyLower kw) item_lower)

/-- `main.py` `_classify_sport(teams, leagues)`: every item of
    `teams + leagues` lands in exactly one bucket, football by default. -/
def _classify_sport (teams leagues : List Str) : SportBuckets :=
  (teams ++ leagues).foldl
    (fun sports item =>
      let item_lower := pyLower item
      if keywordMatch f1_keywords item_lower then
        { sports with f1 := sports.f1 ++ [item] }
      else if keywordMatch tennis_keywords item_lower then
        { sports with tennis := sports.tennis ++ [item] }
      else
        { sports with football := sports.football ++ [item] })
    ⟨[], [], []⟩

/-! ## Tool layer (`main.py` `recent_results`, `_llm_fallback`, `_with_prefix`) -/

/-- The fields of an API-Football fixture that `recent_results` reads
    (numbers are kept in already-rendered form: external data is opaque). -/
structure MatchFixture where
  homeName : Str
  awayName : Str
  goalsHome : Str
  goalsAway : Str
deriving DecidableEq

/-- The fields of an Ergast F1 race result that `recent_results` reads. -/
structure RaceResult where
  raceName : Str
  winnerGiven : Str
  winnerFamily : Str
deriving DecidableEq

/-- External collaborators of the tool layer: `_fetch_api_football` on the
    fixtures endpoint (keyed by team and the `last` parameter),
    `_fetch_ergast_f1("current/last/results")`, `_search_web`, and the LLM
    (`llm.invoke(...).content` as a function of the prompt). `none` models
    any failure (no key, HTTP error, exception, empty response). -/
structure ToolEnv where
  apiFootballFixtures : Str → Int → Option (List MatchFixture)
  ergastLastResults : Option (List RaceResult)
  webSearch : Str → Option Str
  llmText : Str → Str

/-- `main.py` `_llm_fallback(instruction, context=None)`. -/
def _llm_fallback (llmText : Str → Str) (instruction : Str)
    (context : Option Str := none) : Str :=
  let prompt := "Respond with 200 characters or less.\n".toList ++ pyStrip instruction
  let prompt :=
    match context with
    | some c => if c ≠ [] then prompt ++ "\nContext:\n".toList ++ pyStrip c else prompt
    | none => prompt
  _compact (llmText prompt)

/-- `main.py` `_with_prefix(prefix, summary)`. -/
def _with_prefix (pre summary : Str) : Str :=
  let text := if pre ≠ [] then pre ++ ": ".toList ++ summary else summary
  _compact text

/-- `f"{home} {score_home}-{score_away} {away}"`. -/
def fmtMatchLine (m : MatchFixture) : Str :=
  m.homeName ++ " ".toList ++ (m.goalsHome ++ "-".toList ++ m.goalsAway)
    ++ " ".toList ++ m.awayName

/-- The `for team in sports["football"]` loop of `recent_results`: first team
    whose API-Football lookup yields fixtures wins. -/
def footballResultsLoop (api : Str → Int → Option (List MatchFixture))
    (lookback_days : Int) : List Str → Option Str
  | [] => none
  | team :: rest =>
    match api team (min lookback_days 5) with
    | some fixtures =>
      if fixtures ≠ [] then
        some (_compact (joinSemicolon ((fixtures.take 3).map fmtMatchLine)) 250)
      else footballResultsLoop api lookback_days rest
    | none => footballResultsLoop api lookback_days rest

/-- `main.py` tool `recent_results(teams, lookback_days=1)` with its fallback
    chain: API-Football, Ergast F1, web search, LLM fallback. -/
def recent_results (env : ToolEnv) (teams : List Str) (lookback_days : Int := 1) : Str :=
  let teams_str := joinComma teams
  let sports := _classify_sport teams []
  let footballRes :=
    if sports.football ≠ [] then
      footballResultsLoop env.apiFootballFixtures lookback_days sports.football
    else none
  match footballRes with
  | some r => r
  | none =>
    let f1Res :=
      if sports.f1 ≠ [] then
        match env.ergastLastResults with
        | some races =>
          match races with
          | race :: _ =>
            some (_compact ("Latest F1: ".toList ++ race.raceName
              ++ " - Winner: ".toList ++ race.winnerGiven ++ " ".toList ++ race.winnerFamily))
          | [] => none
        | none => none
      else none
    match f1Res with
    | some r => r
    | none =>
      let query := "recent results scores ".toList ++ teams_str
        ++ " last ".toList ++ intStr lookback_days ++ " days".toList
      match env.webSearch query with
      | some web_result => _with_prefix "Recent results".toList web_result
      | none =>
        let instruction := "Provide scores and brief highlights for ".toList ++ teams_str
          ++ " games in the last ".toList ++ intStr lookback_days ++ " day(s).".toList
        _llm_fallback env.llmText instruction

/-! ## Storage (`storage.py`) -/

/-- The user-preferences record (fields of `SportPreferencesRequest` saved by
    `configure_interests`). -/
structure Preferences where
  teams : List Str
  players : List Str
  leagues : List Str
  delivery_time : Str
  timezone : String
  user_id : String
deriving DecidableEq

/-- One entry of `digest_history`. -/
structure DigestEntry where
  digest : Str
  timestamp : Str
deriving DecidableEq

/-- One value of the `users` table: the saved preferences dict, which also
    carries the `digest_history` key once one digest has been saved. -/
structure UserRecord where
  prefs : Preferences
  digest_history : List DigestEntry
deriving DecidableEq

/-- The `users` map of `user_preferences.json`. -/
abbrev Store := String → Option UserRecord

/-- Python `l[s:]` for an arbitrary integer start `s` (CPython slice
    normalization: negative starts count from the end, `-0` is `0`). -/
def pySliceFrom {α : Type} (l : List α) (s : Int) : List α :=
  if s < 0 then l.drop (max 0 ((l.length : Int) + s)).toNat
  else l.drop (min (l.length : Int) s).toNat

/-- `storage.py` `save_digest_history(user_id, digest, timestamp)`: append the
    entry and keep only the last 30 (`history[-30:]`); `False` when the user
    has no stored preferences. -/
def save_digest_history (store : Store) (user_id : String)
    (digest : Str) (timestamp : Str) : Store × Bool :=
  match store user_id with
  | none => (store, false)
  | some r =>
    let history := r.digest_history ++ [⟨digest, timestamp⟩]
    let history := pySliceFrom history (-30)
    (fun u => if u = user_id then some { r with digest_history := history } else store u,
     true)

/-- `storage.py` `get_digest_history(user_id, limit=10)`: `history[-limit:]`. -/
def get_digest_history (store : Store) (user_id : String) (limit : Int := 10) :
    List DigestEntry :=
  match store user_id with
  | none => []
  | some r => pySliceFrom r.digest_history (-limit)

/-! ## Scheduler (`scheduler.py`) -/

/-- An APScheduler job as registered by `schedule_daily_digest`: id
    `digest_{user_id}`, a human-readable name, and the cron trigger fields. -/
structure SchedJob where
  id : String
  name : Str
  hour : Nat
  minute : Nat
  timezone : String
deriving DecidableEq

/-- The scheduler's job table (APScheduler keeps ids unique). -/
abbrev JobTable := List SchedJob

/-- APScheduler `add_job(..., id=job_id, replace_existing=True)`: drop any
    job with the same id, then register the new one. -/
def addJobReplace (tbl : JobTable) (j : SchedJob) : JobTable :=
  tbl.filter (fun k => k.id != j.id) ++ [j]

/-- `scheduler.py` `schedule_daily_digest(user_id, delivery_time, timezone)`.
    `validTZ` is the IANA timezone database (`pytz.timezone` succeeds);
    `CronTrigger` validates the hour/minute ranges.  Any exception
    (bad split, bad int, unknown timezone, bad cron field) is caught and
    logged, leaving the job table unchanged. -/
def schedule_daily_digest (validTZ : String → Bool) (tbl : JobTable)
    (user_id : String) (delivery_time : Str) (timezone : String) : JobTable :=
  match splitOnCh ':' delivery_time with
  | [h, m] =>
    match pyInt h, pyInt m with
    | some hour, some minute =>
      if validTZ timezone then
        if 0 ≤ hour ∧ hour ≤ 23 ∧ 0 ≤ minute ∧ minute ≤ 59 then
          addJobReplace tbl
            { id := "digest_" ++ user_id,
              name := "Daily digest for ".toList ++ user_id.toList,
              hour := hour.toNat, minute := minute.toNat, timezone := timezone }
        else tbl
      else tbl
    | _, _ => tbl
  | _ => tbl

/-- `scheduler.py` `unschedule_digest(user_id)`: `remove_job` removes the job
    or raises `JobLookupError`, which is caught, returning `False`. -/
def unschedule_digest (tbl : JobTable) (user_id : String) : JobTable × Bool :=
  let job_id := "digest_" ++ user_id
  if tbl.any (fun j => j.id == job_id) then
    (tbl.filter (fun j => j.id != job_id), true)
  else (tbl, false)

/-- One row of `get_scheduled_jobs()` output. -/
structure JobView where
  id : String
  name : Str
  next_run : Option Str
deriving DecidableEq

/-- `scheduler.py` `get_scheduled_jobs()`; `nextRunTime` is the scheduler's
    wall-clock computation of each job's next fire time. -/
def get_scheduled_jobs (nextRunTime : String → Option Str) (tbl : JobTable) :
    List JobView :=
  tbl.map (fun j => ⟨j.id, j.name, nextRunTime j.id⟩)

/-- The body of `generate_and_send_digest` before its `except` handler:
    load preferences (early return when absent), run the LangGraph workflow
    (`runGraph`, an external effect that can raise), save to history. -/
def gen_digest_attempt (runGraph : Preferences → Except Str Str) (now_iso : Str)
    (store : Store) (user_id : String) : Except Str Store :=
  match store user_id with
  | none => .ok store
  | some r =>
    match runGraph r.prefs with
    | .error e => .error e
    | .ok digest => .ok (save_digest_history store user_id digest now_iso).1

/-- `scheduler.py` `generate_and_send_digest(user_id)`: the whole body is
    wrapped in `try/except Exception`, which logs and swallows. -/
def generate_and_send_digest (runGraph : Preferences → Except Str Str) (now_iso : Str)
    (store : Store) (user_id : String) : Store :=
  match gen_digest_attempt runGraph now_iso store user_id with
  | .error _ => store
  | .ok s => s

/-! ## API endpoints (`main.py`) -/

/-- The request body of `POST /configure-interests`. -/
structure SportPreferencesRequest where
  teams : List Str
  players : List Str
  leagues : List Str
  delivery_time : Str
  timezone : String
  user_id : Option String
deriving DecidableEq

/-- What `configure_interests` returns to its caller. -/
inductive ConfigResult where
  | saved (user_id : String)
  | httpException (code : Nat)
deriving DecidableEq

/-- Process state touched by the endpoints: the JSON store and the
    scheduler's job table. -/
structure AppState where
  store : Store
  jobs : JobTable

/-- The preferences dict built by `configure_interests`. -/
def reqPrefs (req : SportPreferencesRequest) (uid : String) : Preferences :=
  { teams := req.teams, players := req.players, leagues := req.leagues,
    delivery_time := req.delivery_time, timezone := req.timezone, user_id := uid }

/-- `main.py` `configure_interests`: save preferences (500 when the save
    fails), then call `schedule_daily_digest`, then report success.
    `save_ok` models whether the JSON write raises; `fresh_uuid` models
    `str(uuid.uuid4())`. -/
def configure_interests (validTZ : String → Bool) (save_ok : Bool) (fresh_uuid : String)
    (st : AppState) (req : SportPreferencesRequest) : AppState × ConfigResult :=
  let user_id :=
    match req.user_id with
    | some u => if u ≠ "" then u else fresh_uuid
    | none => fresh_uuid
  if save_ok then
    let store' : Store := fun u =>
      if u = user_id then some { prefs := reqPrefs req user_id, digest_history := [] }
      else st.store u
    let jobs' := schedule_daily_digest validTZ st.jobs user_id req.delivery_time req.timezone
    ({ store := store', jobs := jobs' }, .saved user_id)
  else (st, .httpException 500)

/-- `main.py` `digest_history(user_id, limit=10)` endpoint: 404 when the user
    has no preferences, otherwise the stored history tail. -/
def digest_history (store : Store) (user_id : String) (limit : Int := 10) :
    Except Nat (List DigestEntry) :=
  match store user_id with
  | none => .error 404
  | some _ => .ok (get_digest_history store user_id limit)

/-! ## Orchestration graph state and agents (`main.py`) -/

/-- A tool invocation requested by the LLM. -/
structure ToolReq where
  name : Str
  args : Str
deriving DecidableEq

/-- An LLM message: content plus any requested tool calls (system messages
    carry no tool calls). -/
structure LlmReply where
  content : Str
  tool_calls : List ToolReq
deriving DecidableEq

def sysMsg (content : Str) : LlmReply := ⟨content, []⟩

/-- The module-global collaborators used by the agent node functions:
    the LLM (`llm.bind_tools(tools).invoke(messages)` as a function of the
    bound tool names and the message history) and `ToolNode` execution of
    one requested call. -/
structure AgentEnv where
  llm : List Str → List LlmReply → LlmReply
  toolExec : ToolReq → LlmReply

/-- One element of the `tool_calls` state channel:
    `{"agent": ..., "tool": ..., "args": ...}`. -/
structure ToolCallRec where
  agent : Str
  tool : Str
  args : Str
deriving DecidableEq

/-- `main.py` `SportDigestState` (output slots are `None` until written). -/
structure SportDigestState where
  messages : List LlmReply
  user_preferences : Preferences
  schedule : Option Str
  scores : Option Str
  player_news : Option Str
  analysis : Option Str
  final_digest : Option Str
  tool_calls : List ToolCallRec
deriving DecidableEq

/-- The partial state update returned by one agent node; unset fields keep
    their defaults (the reducers fill them in). -/
structure AgentUpdate where
  messages : List LlmReply
  schedule : Option Str := none
  scores : Option Str := none
  player_news : Option Str := none
  analysis : Option Str := none
  final_digest : Option Str := none
  tool_calls : List ToolCallRec := []
deriving DecidableEq

/-- The body shared by the four gather agents: invoke the LLM with the
    role prompt and bound tools; if tool calls are requested, dispatch each
    through `ToolNode`, append the results and the synthesis instruction,
    and invoke the plain LLM again; otherwise take the direct reply. -/
def runGatherAgent (env : AgentEnv) (agentName : Str) (prompt : Str)
    (toolNames : List Str) (synthPrompt : Str) : Str × List ToolCallRec :=
  let messages := [sysMsg prompt]
  let res := env.llm toolNames messages
  if res.tool_calls ≠ [] then
    let calls := res.tool_calls.map (fun c => (⟨agentName, c.name, c.args⟩ : ToolCallRec))
    let toolMsgs := res.tool_calls.map env.toolExec
    let messages := messages ++ [res] ++ toolMsgs ++ [sysMsg synthPrompt]
    ((env.llm [] messages).content, calls)
  else (res.content, [])

/-- `main.py` `schedule_agent(state)`. -/
def schedule_agent (env : AgentEnv) (state : SportDigestState) : AgentUpdate :=
  let prefs := state.user_preferences
  let teams := prefs.teams
  let timezone := prefs.timezone
  let prompt :=
    "You are a sports schedule assistant.\nFind upcoming games for these teams: ".toList
    ++ joinComma teams ++ ".\nUser timezone: ".toList ++ timezone.toList
    ++ ".\nUse tools to get game schedules, times, and broadcast information.".toList
  let out_calls := runGatherAgent env "schedule".toList prompt
    ["upcoming_games".toList, "game_times".toList, "tv_schedule".toList]
    "Based on the schedule information, create a concise summary of today's and upcoming games.".toList
  { messages := [sysMsg out_calls.1], schedule := some out_calls.1,
    tool_calls := out_calls.2 }

/-- `main.py` `scores_agent(state)`. -/
def scores_agent (env : AgentEnv) (state : SportDigestState) : AgentUpdate :=
  let prefs := state.user_preferences
  let teams := prefs.teams
  let leagues := prefs.leagues
  let prompt :=
    "You are a sports scores analyst.\nGet recent results for these teams: ".toList
    ++ joinComma teams ++ ".\nAlso check standings in these leagues: ".toList
    ++ joinComma leagues ++ ".\nUse tools to get scores, live games, and standings.".toList
  let out_calls := runGatherAgent env "scores".toList prompt
    ["recent_results".toList, "live_scores".toList, "team_standings".toList]
    "Summarize recent scores, highlight key results, and mention current standings.".toList
  { messages := [sysMsg out_calls.1], scores := some out_calls.1,
    tool_calls := out_calls.2 }

/-- `main.py` `player_agent(state)`. -/
def player_agent (env : AgentEnv) (state : SportDigestState) : AgentUpdate :=
  let prefs := state.user_preferences
  let players := prefs.players
  let teams := prefs.teams
  let playersStr := if players ≠ [] then joinComma players else "none".toList
  let prompt :=
    "You are a sports news reporter.\nGet news and updates for these players: ".toList
    ++ playersStr ++ ".\nAlso check injury reports for teams: ".toList
    ++ joinComma teams
    ++ ".\nUse tools to gather player news, injury updates, and performance stats.".toList
  let out_calls := runGatherAgent env "player".toList prompt
    ["player_news".toList, "injury_updates".toList, "player_stats".toList]
    "Summarize player news, injury updates, and notable performances.".toList
  { messages := [sysMsg out_calls.1], player_news := some out_calls.1,
    tool_calls := out_calls.2 }

/-- `main.py` `analysis_agent(state)`: note that, unlike the other three
    gather agents, it reads the `schedule` and `scores` output slots of the
    shared state into its prompt (`state.get("schedule", "")[:300]`,
    `state.get("scores", "")[:300]`). -/
def analysis_agent (env : AgentEnv) (state : SportDigestState) : AgentUpdate :=
  let prefs := state.user_preferences
  let teams := prefs.teams
  let leagues := prefs.leagues
  let schedule_info := state.schedule.getD []
  let scores_info := state.scores.getD []
  let prompt :=
    "You are a sports analyst providing strategic insights.\nAnalyze upcoming games for these teams: ".toList
    ++ joinComma teams ++ " in leagues: ".toList ++ joinComma leagues
    ++ ".\nSchedule context: ".toList ++ schedule_info.take 300
    ++ "\nRecent results context: ".toList ++ scores_info.take 300
    ++ "\nProvide: 1) Key matchup analysis, 2) Playoff/relegation implications, 3) Rivalry games, 4) Must-watch recommendations.\nUse the analysis tools to provide insights.".toList
  let out_calls := runGatherAgent env "analysis".toList prompt
    ["matchup_analysis".toList, "playoff_implications".toList,
     "detect_rivalries".toList, "must_watch_games".toList]
    "Synthesize the analysis into key insights: 1) Most important matchups, 2) Playoff implications, 3) Rivalry alerts, 4) Top must-watch games.".toList
  { messages := [sysMsg out_calls.1], analysis := some out_calls.1,
    tool_calls := out_calls.2 }

/-! ## Synthesis node helpers (`main.py`) -/

/-- `main.py` `_extract_team_info(team_name, text)`: the first two sentences
    mentioning the name, stripped and re-joined with `'. '` plus a dot. -/
def _extract_team_info (team_name text : Str) : Str :=
  if text = [] ∨ team_name = [] then []
  else
    let sentences := splitOnCh '.' text
    let relevant :=
      (sentences.filter (fun s => isSub (pyLower team_name) (pyLower s))).map pyStrip
    if relevant ≠ [] then joinDotSpace (relevant.take 2) ++ ['.'] else []

/-- `main.py` `_build_football_section`. -/
def _build_football_section (teams leagues : List Str)
    (schedule scores analysis : Str) : Str :=
  if teams = [] ∧ leagues = [] then []
  else
    let section0 := "⚽ **FUTEBOL**\n".toList ++ List.replicate 70 '=' ++ "\n\n".toList
    let section1 := teams.foldl (fun sec team =>
      let sec := sec ++ "### ".toList ++ team ++ "\n".toList
      let team_schedule := _extract_team_info team schedule
      let team_scores := _extract_team_info team scores
      let sec :=
        if team_scores ≠ [] then
          sec ++ "📊 Resultados recentes: ".toList ++ team_scores ++ "\n".toList
        else sec
      let sec :=
        if team_schedule ≠ [] then
          sec ++ "📅 Próximos jogos: ".toList ++ team_schedule ++ "\n".toList
        else sec
      sec ++ "\n".toList) section0
    let section2 :=
      if leagues.any (fun l => isSub "Champions".toList l) then
        let s := section1 ++ "### 🏆 UEFA Champions League\n".toList
        let cl_info := _extract_team_info "Champions".toList
          (scores ++ " ".toList ++ schedule ++ " ".toList ++ analysis)
        let s := if cl_info ≠ [] then s ++ cl_info ++ "\n".toList else s
        s ++ "\n".toList
      else section1
    let section3 :=
      if leagues.any (fun l => isSub "Brasileir".toList l) then
        let s := section2 ++ "### 🇧🇷 Brasileirão\n".toList
        let br_info := _extract_team_info "Brasileir".toList
          (scores ++ " ".toList ++ schedule)
        let s := if br_info ≠ [] then s ++ br_info ++ "\n".toList else s
        s ++ "\n".toList
      else section2
    section3

def tennis_player_keywords : List Str :=
  (["fonseca", "djokovic", "nadal", "federer", "alcaraz", "sinner"]).map String.toList

/-- `main.py` `_is_tennis_player(player_name)`. -/
def _is_tennis_player (player_name : Str) : Bool :=
  tennis_player_keywords.any (fun kw => isSub kw (pyLower player_name))

/-- `main.py` `_build_tennis_section`. -/
def _build_tennis_section (players : List Str) (player_news : Str) : Str :=
  if players = [] then []
  else
    let section0 := "🎾 **TÊNIS**\n".toList ++ List.replicate 70 '=' ++ "\n\n".toList
    players.foldl (fun sec player =>
      if _is_tennis_player player || isSub "tennis".toList (pyLower player) then
        let sec := sec ++ "### ".toList ++ player ++ "\n".toList
        let player_info := _extract_team_info player player_news
        let sec :=
          if player_info ≠ [] then sec ++ player_info ++ "\n".toList
          else sec ++ "Informações não disponíveis no momento.\n".toList
        sec ++ "\n".toList
      else sec) section0

/-- Python `a or b` on strings. -/
def pyOrStr (a b : Str) : Str := if a ≠ [] then a else b

/-- `main.py` `_build_f1_section`. -/
def _build_f1_section (schedule scores : Str) : Str :=
  if ¬ (isSub "F1".toList schedule || isSub "F1".toList scores
      || isSub "Formula".toList schedule || isSub "Formula".toList scores) then []
  else
    let section0 := "🏎️ **FÓRMULA 1**\n".toList ++ List.replicate 70 '=' ++ "\n\n".toList
    let f1_schedule := pyOrStr (_extract_team_info "F1".toList schedule)
      (_extract_team_info "Formula".toList schedule)
    let f1_scores := pyOrStr (_extract_team_info "F1".toList scores)
      (_extract_team_info "Formula".toList scores)
    let s := section0
    let s :=
      if f1_scores ≠ [] then
        s ++ "🏁 Última corrida:\n".toList ++ f1_scores ++ "\n\n".toList
      else s
    let s :=
      if f1_schedule ≠ [] then
        s ++ "📅 Próxima corrida:\n".toList ++ f1_schedule ++ "\n\n".toList
      else s
    if f1_scores = [] ∧ f1_schedule = [] then
      s ++ "Informações de Fórmula 1 não disponíveis no momento.\n\n".toList
    else s

/-- Python `str(l)` for a list of strings (single-quoted repr). -/
def pyReprStrList (l : List Str) : Str :=
  "[".toList ++ joinComma (l.map (fun s => Char.ofNat 39 :: (s ++ [Char.ofNat 39])))
    ++ "]".toList

/-- `main.py` `digest_agent(state)`: the synthesis node.  Pure text
    composition over the user preferences and the four gathered output
    slots; it takes the module globals (`env`) like every node but never
    uses them. -/
def digest_agent (env : AgentEnv) (state : SportDigestState) : AgentUpdate :=
  let prefs := state.user_preferences
  let teams := prefs.teams
  let players := prefs.players
  let leagues := prefs.leagues
  let schedule := state.schedule.getD []
  let scores := state.scores.getD []
  let player_news := state.player_news.getD []
  let analysis := state.analysis.getD []
  let sports := _classify_sport teams leagues
  let sections : List Str := []
  let sections :=
    if sports.football ≠ [] ∨ leagues.any (fun l =>
        l == "Champions League".toList || l == "Brasileirão".toList
        || l == "Premier League".toList) then
      let football_section := _build_football_section
        (sports.football ++ teams.filter (fun t =>
          !(sports.football.contains t) && !(sports.tennis.contains t)
          && !(sports.f1.contains t)))
        leagues schedule scores analysis
      if football_section ≠ [] then sections ++ [football_section] else sections
    else sections
  let tennis_players := players.filter (fun p => _is_tennis_player p)
  let sections :=
    if tennis_players ≠ [] ∨ sports.tennis ≠ [] then
      let tennis_section := _build_tennis_section tennis_players player_news
      if tennis_section ≠ [] then sections ++ [tennis_section] else sections
    else sections
  let sections :=
    if sports.f1 ≠ [] ∨ isSub "F1".toList (pyReprStrList teams)
        ∨ isSub "Formula".toList (pyReprStrList teams) then
      let f1_section := _build_f1_section schedule scores
      if f1_section ≠ [] then sections ++ [f1_section] else sections
    else sections
  let digest :=
    if sections ≠ [] then List.intercalate "\n\n".toList sections
    else
      "📊 RESULTADOS RECENTES\n".toList ++ scores.take 300 ++ "\n\n".toList
      ++ "📅 PRÓXIMOS JOGOS\n".toList ++ schedule.take 300 ++ "\n\n".toList
      ++ "🗞️ NOTÍCIAS\n".toList ++ player_news.take 300
  { messages := [sysMsg digest], final_digest := some digest }

/-! ## Claim C3: `_compact` truncation properties -/

/-- C3 (counterexample): for the single 201-character word `"aaa…a"` with the
    default limit 200, `_compact` cuts the word in the middle — the output is
    the first 200 characters of the word, which is neither the whole collapsed
    text nor any join of whole words with trailing punctuation stripped.  This
    refutes "compact never truncates in the middle of a word". -/
theorem C3_counterexample :
    _compact (List.replicate 201 'a') 200 = List.replicate 200 'a' ∧
    wordBoundaryTruncB (List.replicate 201 'a') 200 = false := by
  constructor
  · decide
  · decide

/-- C3 (amended): for every string `s` and limit, `_compact` is idempotent
    and its output never exceeds the limit; and whenever the collapsed text
    either fits within the limit or has a space among its first `limit`
    characters (i.e. it does not begin with a single word longer than the
    limit), the truncation happens at a word boundary with trailing
    punctuation stripped. -/
theorem C3_compact_spec (s : Str) (limit : Nat) :
    _compact (_compact s limit) limit = _compact s limit ∧
    (_compact s limit).length ≤ limit ∧
    ((joinSpace (wsplit s)).length ≤ limit ∨
        0 < pyRfindSpace ((joinSpace (wsplit s)).take limit) →
      wordBoundaryTruncB s limit = true) :=
  ⟨_compact_idem s limit, _compact_length_le s limit, _compact_word_boundary s limit⟩

/-- Witness for C3 at a concrete input whose truncation point falls inside
    the text: `_compact "hello cruel world" 8 = "hello"`. -/
theorem C3_compact_spec_witness :
    (0 < pyRfindSpace ((joinSpace (wsplit "hello cruel world".toList)).take 8)) ∧
    (_compact (_compact "hello cruel world".toList 8) 8 = _compact "hello cruel world".toList 8 ∧
     (_compact "hello cruel world".toList 8).length ≤ 8 ∧
     wordBoundaryTruncB "hello cruel world".toList 8 = true) :=
  ⟨by decide,
   (C3_compact_spec "hello cruel world".toList 8).1,
   (C3_compact_spec "hello cruel world".toList 8).2.1,
   (C3_compact_spec "hello cruel world".toList 8).2.2 (Or.inr (by decide))⟩

/-! ## Claims C5 and C10: digest history -/

/-- What one `save_digest_history` call does to the history list. -/
def histStep (h : List DigestEntry) (e : DigestEntry) : List DigestEntry :=
  pySliceFrom (h ++ [e]) (-30)

/-- The last `n` elements of a list. -/
def lastN {α : Type} (n : Nat) (l : List α) : List α := l.drop (l.length - n)

theorem pySliceFrom_neg {α : Type} (l : List α) (n : Nat) (hn : 0 < n) :
    pySliceFrom l (-(n : Int)) = lastN n l := by
  unfold pySliceFrom lastN
  rw [if_pos (by omega : -(n : Int) < 0)]
  congr 1
  omega

theorem pySliceFrom_zero {α : Type} (l : List α) : pySliceFrom l (-(0 : Int)) = l := by
  unfold pySliceFrom
  rw [if_neg (by omega)]
  have : (min (l.length : Int) (-(0 : Int))).toNat = 0 := by omega
  rw [this, List.drop_zero]

theorem histStep_eq_lastN (h : List DigestEntry) (e : DigestEntry) :
    histStep h e = lastN 30 (h ++ [e]) :=
  pySliceFrom_neg _ 30 (by omega)

theorem lastN_eq_reverse_take {α : Type} (l : List α) (n : Nat) :
    lastN n l = (l.reverse.take n).reverse := by
  unfold lastN
  rw [← List.reverse_reverse (l.drop (l.length - n))]
  congr 1
  rw [List.reverse_drop]
  by_cases h : n ≤ l.length
  · congr 1
    omega
  · have h1 : l.length - (l.length - n) = l.length := by omega
    rw [h1]
    rw [List.take_of_length_le (by simp), List.take_of_length_le (by simp; omega)]


theorem take_append_take {α : Type} (n : Nat) (x y : List α) :
    (x ++ y.take n).take n = (x ++ y).take n := by
  rw [List.take_append_eq_append_take, List.take_append_eq_append_take, List.take_take]
  congr 2
  omega

theorem lastN_append_lastN {α : Type} (n : Nat) (a b : List α) :
    lastN n (lastN n a ++ b) = lastN n (a ++ b) := by
  rw [lastN_eq_reverse_take a n]
  rw [lastN_eq_reverse_take, lastN_eq_reverse_take]
  rw [List.reverse_append, List.reverse_reverse, List.reverse_append]
  rw [take_append_take]

theorem lastN_length_le {α : Type} (n : Nat) (l : List α) : (lastN n l).length ≤ n := by
  unfold lastN
  simp only [List.length_drop]
  omega

theorem foldl_histStep (es : List DigestEntry) (hne : es ≠ []) :
    ∀ h0 : List DigestEntry, es.foldl histStep h0 = lastN 30 (h0 ++ es) := by
  induction es with
  | nil => exact absurd rfl hne
  | cons e es' ih =>
    intro h0
    cases hes : es' with
    | nil =>
      rw [List.foldl_cons, List.foldl_nil, histStep_eq_lastN]
    | cons f fs =>
      subst hes
      rw [List.foldl_cons]
      rw [ih (by simp) (histStep h0 e)]
      rw [histStep_eq_lastN, lastN_append_lastN]
      congr 1
      simp

/-- Effect of one `save_digest_history` call on the saved user's record. -/
theorem save_digest_history_lookup {store : Store} {user_id : String} {r : UserRecord}
    (h : store user_id = some r) (d t : Str) :
    (save_digest_history store user_id d t).1 user_id =
      some { r with digest_history := histStep r.digest_history ⟨d, t⟩ } := by
  unfold save_digest_history
  rw [h]
  simp [histStep]

/-- Iterated `save_digest_history` calls for one user. -/
def saveDigestsFold (store : Store) (user_id : String) (es : List DigestEntry) : Store :=
  es.foldl (fun st e => (save_digest_history st user_id e.digest e.timestamp).1) store

theorem saveDigestsFold_lookup (es : List DigestEntry) :
    ∀ (store : Store) (user_id : String) (r : UserRecord), store user_id = some r →
    (saveDigestsFold store user_id es) user_id =
      some { r with digest_history := es.foldl histStep r.digest_history } := by
  induction es with
  | nil =>
    intro store user_id r h
    simpa [saveDigestsFold] using h
  | cons e es' ih =>
    intro store user_id r h
    have h1 : (save_digest_history store user_id e.digest e.timestamp).1 user_id =
        some { r with digest_history := histStep r.digest_history e } :=
      save_digest_history_lookup h e.digest e.timestamp
    have h2 := ih ((save_digest_history store user_id e.digest e.timestamp).1) user_id
      { r with digest_history := histStep r.digest_history e } h1
    rw [show saveDigestsFold store user_id (e :: es') =
      saveDigestsFold ((save_digest_history store user_id e.digest e.timestamp).1)
        user_id es' from rfl]
    rw [h2, List.foldl_cons]


/-- Pointwise characterization of `save_digest_history`. -/
theorem save_digest_history_char (store : Store) (user_id : String) (d t : Str) (u : String) :
    (save_digest_history store user_id d t).1 u =
      (match store user_id with
      | none => store u
      | some r =>
        if u = user_id then
          some { r with digest_history := histStep r.digest_history ⟨d, t⟩ }
        else store u) := by
  cases h : store user_id with
  | none =>
    unfold save_digest_history
    rw [h]
  | some r =>
    unfold save_digest_history histStep
    rw [h]

theorem get_digest_history_some {store : Store} {user_id : String} {r : UserRecord}
    (h : store user_id = some r) (limit : Int) :
    get_digest_history store user_id limit = pySliceFrom r.digest_history (-limit) := by
  unfold get_digest_history
  rw [h]

theorem digest_history_some {store : Store} {user_id : String} {r : UserRecord}
    (h : store user_id = some r) (limit : Int) :
    digest_history store user_id limit = .ok (get_digest_history store user_id limit) := by
  unfold digest_history
  rw [h]

/-- C5: the digest history is capped at 30 with FIFO eviction.  (1) One
    `save_digest_history` call preserves "every stored history has at most 30
    entries" for every user.  (2) Saving 35 entries in sequence for one user
    leaves exactly the most recent 30 of them (`es.drop 5`), in oldest-first
    order. -/
theorem C5_history_capped_fifo :
    (∀ (store : Store) (user_id : String) (d t : Str) (u : String) (r' : UserRecord),
      (∀ u0 r0, store u0 = some r0 → r0.digest_history.length ≤ 30) →
      (save_digest_history store user_id d t).1 u = some r' →
      r'.digest_history.length ≤ 30) ∧
    (∀ (store : Store) (user_id : String) (r : UserRecord) (es : List DigestEntry),
      store user_id = some r → es.length = 35 →
      (saveDigestsFold store user_id es) user_id =
        some { r with digest_history := es.drop 5 }) := by
  constructor
  · intro store user_id d t u r' hinv hres
    rw [save_digest_history_char store user_id d t u] at hres
    cases hs : store user_id with
    | none =>
      rw [hs] at hres
      exact hinv u r' hres
    | some r =>
      rw [hs] at hres
      simp only at hres
      by_cases hu : u = user_id
      · rw [if_pos hu] at hres
        injection hres with hr'
        rw [← hr']
        rw [show ({ r with digest_history := histStep r.digest_history ⟨d, t⟩ } :
          UserRecord).digest_history = histStep r.digest_history ⟨d, t⟩ from rfl]
        rw [histStep_eq_lastN]
        exact lastN_length_le 30 _
      · rw [if_neg hu] at hres
        exact hinv u r' hres
  · intro store user_id r es h h35
    rw [saveDigestsFold_lookup es store user_id r h]
    have hfold : es.foldl histStep r.digest_history = es.drop 5 := by
      rw [foldl_histStep es (by intro hnil; rw [hnil] at h35; simp at h35)]
      show lastN 30 (r.digest_history ++ es) = es.drop 5
      unfold lastN
      have harith : (r.digest_history ++ es).length - 30 = r.digest_history.length + 5 := by
        simp [h35]
      rw [harith, List.drop_append]
    rw [hfold]

/-- A concrete one-user store for the C5 witness. -/
def c5Record : UserRecord :=
  { prefs := { teams := [], players := [], leagues := [],
               delivery_time := [], timezone := "UTC", user_id := "u1" },
    digest_history := [⟨"d0".toList, "t0".toList⟩] }

def c5Store : Store := fun u => if u = "u1" then some c5Record else none

def c5Entries : List DigestEntry :=
  (List.range 35).map (fun i => ⟨intStr i, "ts".toList⟩)

/-- Witness for C5 at the concrete store: 35 saves leave entries 5..34, and
    one save keeps every stored history at 30 entries or fewer. -/
theorem C5_history_capped_fifo_witness :
    (saveDigestsFold c5Store "u1" c5Entries) "u1" =
      some { c5Record with digest_history := c5Entries.drop 5 } ∧
    (∀ u r', (save_digest_history c5Store "u1" "d".toList "t".toList).1 u = some r' →
      r'.digest_history.length ≤ 30) := by
  constructor
  · exact C5_history_capped_fifo.2 c5Store "u1" c5Record c5Entries
      (by simp [c5Store]) (by decide)
  · intro u r'
    refine C5_history_capped_fifo.1 c5Store "u1" "d".toList "t".toList u r' ?_
    intro u0 r0 h0
    unfold c5Store at h0
    by_cases hu : u0 = "u1"
    · rw [if_pos hu] at h0
      cases h0
      decide
    · rw [if_neg hu] at h0
      cases h0

/-- C10: with limit 0 the history endpoint returns the entire stored history
    (`history[-0:]` is the whole list, not zero entries), and for every
    positive limit `n` it returns exactly the last `min n length` entries in
    oldest-first order. -/
theorem C10_history_limit (store : Store) (user_id : String) (r : UserRecord)
    (h : store user_id = some r) :
    digest_history store user_id 0 = .ok r.digest_history ∧
    (∀ n : Nat, 0 < n →
      digest_history store user_id (n : Int) =
        .ok (r.digest_history.drop (r.digest_history.length - n)) ∧
      (get_digest_history store user_id (n : Int)).length =
        min n r.digest_history.length) := by
  constructor
  · rw [digest_history_some h 0, get_digest_history_some h 0]
    rw [show pySliceFrom r.digest_history (-(0 : Int)) = r.digest_history from
      pySliceFrom_zero _]
  · intro n hn
    constructor
    · rw [digest_history_some h (n : Int), get_digest_history_some h (n : Int)]
      rw [pySliceFrom_neg _ n hn]
      rfl
    · rw [get_digest_history_some h (n : Int), pySliceFrom_neg _ n hn]
      unfold lastN
      simp only [List.length_drop]
      omega

/-- A concrete three-entry record and store for the C10 witness. -/
def c10Record : UserRecord :=
  { prefs := { teams := [], players := [], leagues := [],
               delivery_time := [], timezone := "UTC", user_id := "u1" },
    digest_history := [⟨"a".toList, "1".toList⟩, ⟨"b".toList, "2".toList⟩,
                       ⟨"c".toList, "3".toList⟩] }

def c10Store : Store := fun u => if u = "u1" then some c10Record else none

/-- Witness for C10: limits 0 and 2 on the concrete three-entry history. -/
theorem C10_history_limit_witness :
    digest_history c10Store "u1" 0 = .ok c10Record.digest_history ∧
    digest_history c10Store "u1" ((2 : Nat) : Int) =
      .ok [⟨"b".toList, "2".toList⟩, ⟨"c".toList, "3".toList⟩] := by
  constructor
  · exact (C10_history_limit c10Store "u1" c10Record (by simp [c10Store])).1
  · rw [((C10_history_limit c10Store "u1" c10Record (by simp [c10Store])).2 2 (by omega)).1]
    exact congrArg Except.ok (by decide)

/-! ## Claims C6 and C8: scheduler job table -/

/-- Number of scheduler jobs whose id is `digest_{user_id}`. -/
def countJobsFor (tbl : JobTable) (user_id : String) : Nat :=
  (tbl.filter (fun j => j.id == "digest_" ++ user_id)).length

/-- The inputs for which `schedule_daily_digest` actually registers a job:
    `delivery_time` splits as `HH:MM` with in-range integers, and the
    timezone is in the IANA database. -/
def validScheduleInput (validTZ : String → Bool) (delivery_time : Str)
    (timezone : String) : Prop :=
  (∃ h m hour minute, splitOnCh ':' delivery_time = [h, m] ∧
    pyInt h = some hour ∧ pyInt m = some minute ∧
    0 ≤ hour ∧ hour ≤ 23 ∧ 0 ≤ minute ∧ minute ≤ 59) ∧
  validTZ timezone = true

theorem schedule_daily_digest_valid {validTZ : String → Bool} {delivery_time : Str}
    {timezone : String} (tbl : JobTable) (user_id : String)
    (h : validScheduleInput validTZ delivery_time timezone) :
    ∃ j : SchedJob, j.id = "digest_" ++ user_id ∧
      schedule_daily_digest validTZ tbl user_id delivery_time timezone =
        addJobReplace tbl j := by
  obtain ⟨⟨hs, m, hour, minute, hsplit, hh, hm, h1, h2, h3, h4⟩, htz⟩ := h
  refine ⟨{ id := "digest_" ++ user_id,
            name := "Daily digest for ".toList ++ user_id.toList,
            hour := hour.toNat, minute := minute.toNat, timezone := timezone },
          rfl, ?_⟩
  unfold schedule_daily_digest
  rw [hsplit]
  simp only [hh, hm]
  rw [if_pos htz, if_pos ⟨h1, h2, h3, h4⟩]

theorem countJobsFor_addJobReplace (tbl : JobTable) (user_id : String) (j : SchedJob)
    (hid : j.id = "digest_" ++ user_id) : countJobsFor (addJobReplace tbl j) user_id = 1 := by
  unfold countJobsFor addJobReplace
  rw [List.filter_append, List.filter_filter]
  have hnone : ∀ k : SchedJob, ((k.id == "digest_" ++ user_id) &&
      (k.id != j.id)) = false := by
    intro k
    rw [hid]
    cases hk : (k.id == "digest_" ++ user_id) <;> simp [bne, hk]
  rw [List.filter_eq_nil_iff.mpr (fun k _ => by rw [hnone k]; exact Bool.false_ne_true)]
  simp [hid]

/-- C6: for valid inputs, scheduling is idempotent and keyed by user id: one
    `schedule_daily_digest` call leaves exactly one job (and one
    `get_scheduled_jobs` row) for `digest_{user_id}` no matter what the table
    held before, and a second call with the same or different valid arguments
    still leaves exactly one. -/
theorem C6_schedule_idempotent (validTZ : String → Bool) (nextRunTime : String → Option Str)
    (tbl : JobTable) (user_id : String) (dt1 dt2 : Str) (tz1 tz2 : String)
    (h1 : validScheduleInput validTZ dt1 tz1) (h2 : validScheduleInput validTZ dt2 tz2) :
    countJobsFor (schedule_daily_digest validTZ tbl user_id dt1 tz1) user_id = 1 ∧
    ((get_scheduled_jobs nextRunTime (schedule_daily_digest validTZ tbl user_id dt1 tz1)).filter
      (fun v => v.id == "digest_" ++ user_id)).length = 1 ∧
    countJobsFor (schedule_daily_digest validTZ
      (schedule_daily_digest validTZ tbl user_id dt1 tz1) user_id dt2 tz2) user_id = 1 := by
  obtain ⟨j1, hj1, he1⟩ := schedule_daily_digest_valid tbl user_id h1
  obtain ⟨j2, hj2, he2⟩ :=
    schedule_daily_digest_valid (schedule_daily_digest validTZ tbl user_id dt1 tz1) user_id h2
  refine ⟨?_, ?_, ?_⟩
  · rw [he1]
    exact countJobsFor_addJobReplace tbl user_id j1 hj1
  · unfold get_scheduled_jobs
    rw [List.filter_map]
    rw [List.length_map]
    rw [he1]
    exact countJobsFor_addJobReplace tbl user_id j1 hj1
  · rw [he2]
    exact countJobsFor_addJobReplace _ user_id j2 hj2

/-- Witness for C6 at concrete inputs: user `u1`, `07:00` then `08:30`,
    both in `America/Los_Angeles`, starting from an empty table. -/
theorem C6_schedule_idempotent_witness :
    validScheduleInput (fun tz => tz == "America/Los_Angeles") "07:00".toList
      "America/Los_Angeles" ∧
    countJobsFor (schedule_daily_digest (fun tz => tz == "America/Los_Angeles")
      (schedule_daily_digest (fun tz => tz == "America/Los_Angeles") [] "u1"
        "07:00".toList "America/Los_Angeles") "u1" "08:30".toList "America/Los_Angeles")
      "u1" = 1 := by
  have hv1 : validScheduleInput (fun tz => tz == "America/Los_Angeles") "07:00".toList
      "America/Los_Angeles" :=
    ⟨⟨"07".toList, "00".toList, 7, 0, by decide, by decide, by decide,
      by omega, by omega, by omega, by omega⟩, by decide⟩
  have hv2 : validScheduleInput (fun tz => tz == "America/Los_Angeles") "08:30".toList
      "America/Los_Angeles" :=
    ⟨⟨"08".toList, "30".toList, 8, 30, by decide, by decide, by decide,
      by omega, by omega, by omega, by omega⟩, by decide⟩
  exact ⟨hv1, (C6_schedule_idempotent (fun tz => tz == "America/Los_Angeles")
    (fun _ => none) [] "u1" "07:00".toList "08:30".toList
    "America/Los_Angeles" "America/Los_Angeles" hv1 hv2).2.2⟩

/-- C8: `unschedule_digest` for a user with no scheduled job returns `false`
    and leaves the job table unchanged (the `JobLookupError` from
    `remove_job` is caught). -/
theorem C8_unschedule_noop (tbl : JobTable) (user_id : String)
    (h : ∀ j ∈ tbl, j.id ≠ "digest_" ++ user_id) :
    unschedule_digest tbl user_id = (tbl, false) := by
  unfold unschedule_digest
  rw [if_neg ?_]
  intro hany
  obtain ⟨j, hj, hid⟩ := List.any_eq_true.mp hany
  exact h j hj (by simpa using hid)

/-- Witness for C8: a table holding only another user's job. -/
theorem C8_unschedule_noop_witness :
    unschedule_digest [⟨"digest_u2", "Daily digest for u2".toList, 7, 0, "UTC"⟩] "u1" =
      ([⟨"digest_u2", "Daily digest for u2".toList, 7, 0, "UTC"⟩], false) :=
  C8_unschedule_noop _ "u1" (by decide)

/-! ## Claim C7: scheduled-run failure containment -/

/-- C7: the scheduled fire handler never raises — `gen_digest_attempt` errors
    (provider/graph failures) are swallowed, leaving the store exactly as it
    was; a user with no stored preferences is skipped the same way; and for
    every outcome, every other user's stored record is untouched (the handler
    never touches the scheduler's job table at all — it only reads
    preferences, runs the graph and writes this user's history). -/
theorem C7_scheduled_run_contained (runGraph : Preferences → Except Str Str)
    (now_iso : Str) (store : Store) (user_id : String) :
    (∀ e, gen_digest_attempt runGraph now_iso store user_id = .error e →
      generate_and_send_digest runGraph now_iso store user_id = store) ∧
    (store user_id = none →
      generate_and_send_digest runGraph now_iso store user_id = store) ∧
    (∀ u, u ≠ user_id →
      generate_and_send_digest runGraph now_iso store user_id u = store u) := by
  refine ⟨?_, ?_, ?_⟩
  · intro e he
    unfold generate_and_send_digest
    rw [he]
  · intro hnone
    unfold generate_and_send_digest gen_digest_attempt
    rw [hnone]
  · intro u hu
    unfold generate_and_send_digest gen_digest_attempt
    cases hs : store user_id with
    | none => rfl
    | some r =>
      simp only []
      cases hg : runGraph r.prefs with
      | error e => rfl
      | ok digest =>
        simp only []
        rw [save_digest_history_char store user_id digest now_iso u, hs]
        simp only []
        rw [if_neg hu]

/-- Witness for C7: a graph run that raises, at a concrete one-user store;
    the store is unchanged and the other user's slot is untouched. -/
theorem C7_scheduled_run_contained_witness :
    generate_and_send_digest (fun _ => .error "provider unreachable".toList)
      "2024-01-01T07:00:00".toList c5Store "u1" = c5Store ∧
    generate_and_send_digest (fun _ => .ok "digest text".toList)
      "2024-01-01T07:00:00".toList c5Store "u1" "u2" = c5Store "u2" := by
  constructor
  · refine (C7_scheduled_run_contained _ _ c5Store "u1").1 "provider unreachable".toList ?_
    show gen_digest_attempt _ _ c5Store "u1" = _
    unfold gen_digest_attempt
    rw [show c5Store "u1" = some c5Record from by simp [c5Store]]
  · exact (C7_scheduled_run_contained _ _ c5Store "u1").2.2 "u2" (by decide)

/-! ## Claim C2: malformed schedule input (code bug) -/

def c2Request : SportPreferencesRequest :=
  { teams := ["Lakers".toList], players := [], leagues := ["NBA".toList],
    delivery_time := "morning".toList, timezone := "America/Los_Angeles",
    user_id := some "u1" }

def c2State : AppState := { store := fun _ => none, jobs := [] }

def c2ValidTZ : String → Bool := fun tz => tz == "America/Los_Angeles"

/-- C2 (code behavior at the failing input): saving preferences with the
    malformed `delivery_time = "morning"` — `"morning".split(":")` cannot be
    unpacked into hour and minute, so `schedule_daily_digest` catches the
    exception and logs it — yet `configure_interests` still answers
    `{"status": "saved", ...}` with the preferences stored and **no** job in
    the scheduler table.  The spec requires the input to be rejected at
    `schedule()` call time and the save to fail or warn instead. -/
theorem C2_malformed_time_reported_saved :
    (configure_interests c2ValidTZ true "fresh" c2State c2Request).2 =
      ConfigResult.saved "u1" ∧
    (configure_interests c2ValidTZ true "fresh" c2State c2Request).1.jobs = [] ∧
    (configure_interests c2ValidTZ true "fresh" c2State c2Request).1.store "u1" =
      some { prefs := reqPrefs c2Request "u1", digest_history := [] } := by
  refine ⟨rfl, by decide, ?_⟩
  show (if "u1" = "u1" then some { prefs := reqPrefs c2Request "u1", digest_history := [] }
    else c2State.store "u1") = _
  rw [if_pos rfl]

/-! ## Claim C4: tool fallback chain -/

/-- The instruction `recent_results` hands to `_llm_fallback` when every
    earlier source has failed. -/
def recentResultsFallbackInstr (teams : List Str) (lookback_days : Int) : Str :=
  "Provide scores and brief highlights for ".toList ++ joinComma teams
    ++ " games in the last ".toList ++ intStr lookback_days ++ " day(s).".toList

theorem footballResultsLoop_none {api : Str → Int → Option (List MatchFixture)}
    (hapi : ∀ t l, api t l = none) (lookback_days : Int) :
    ∀ ts : List Str, footballResultsLoop api lookback_days ts = none := by
  intro ts
  induction ts with
  | nil => rfl
  | cons t rest ih =>
    unfold footballResultsLoop
    rw [hapi t (min lookback_days 5)]
    exact ih

/-- An environment in which every external source fails and the capability
    provider answers the empty string. -/
def c4AllFailEnv : ToolEnv :=
  { apiFootballFixtures := fun _ _ => none,
    ergastLastResults := none,
    webSearch := fun _ => none,
    llmText := fun _ => [] }

/-- C4 (counterexample): with the specialized source, the F1 source and the
    web search all failing and the capability provider returning the empty
    string, `recent_results` returns the **empty** string — the generic
    textual fallback is not always non-empty. -/
theorem C4_counterexample : recent_results c4AllFailEnv ["Lakers".toList] 1 = [] := by
  decide

/-- C4 (amended): `invoke` never raises (every failure is an absorbed
    `none`), and whenever the specialized structured source and the
    web-search source (and the F1 source) all fail, the generic
    capability-based textual fallback is what is returned; it is non-empty
    exactly when the provider's compacted reply is non-empty — an empty or
    whitespace-only provider reply yields the empty string. -/
theorem C4_fallback_chain (env : ToolEnv) (teams : List Str) (lookback_days : Int)
    (hapi : ∀ t l, env.apiFootballFixtures t l = none)
    (herg : env.ergastLastResults = none)
    (hweb : ∀ q, env.webSearch q = none) :
    recent_results env teams lookback_days =
      _llm_fallback env.llmText (recentResultsFallbackInstr teams lookback_days) ∧
    (recent_results env teams lookback_days ≠ [] ↔
      _compact (env.llmText ("Respond with 200 characters or less.\n".toList
        ++ pyStrip (recentResultsFallbackInstr teams lookback_days))) ≠ []) := by
  have hmain : recent_results env teams lookback_days =
      _llm_fallback env.llmText (recentResultsFallbackInstr teams lookback_days) := by
    unfold recent_results
    simp only []
    rw [show (if (_classify_sport teams []).football ≠ [] then
        footballResultsLoop env.apiFootballFixtures lookback_days
          (_classify_sport teams []).football
      else none) = none from by
        by_cases hf : (_classify_sport teams []).football ≠ []
        · rw [if_pos hf]; exact footballResultsLoop_none hapi lookback_days _
        · rw [if_neg hf]]
    rw [show (if (_classify_sport teams []).f1 ≠ [] then
        (match env.ergastLastResults with
         | some races =>
           match races with
           | race :: _ =>
             some (_compact ("Latest F1: ".toList ++ race.raceName
               ++ " - Winner: ".toList ++ race.winnerGiven ++ " ".toList
               ++ race.winnerFamily))
           | [] => none
         | none => none)
      else none) = none from by
        by_cases hf : (_classify_sport teams []).f1 ≠ []
        · rw [if_pos hf, herg]
        · rw [if_neg hf]]
    rw [hweb]
    rfl
  refine ⟨hmain, ?_⟩
  rw [hmain]
  unfold _llm_fallback recentResultsFallbackInstr
  simp only []

/-- Witness for C4: all sources fail, the provider answers a short text;
    the chain lands on the compacted LLM fallback. -/
theorem C4_fallback_chain_witness :
    recent_results
      { apiFootballFixtures := fun _ _ => none, ergastLastResults := none,
        webSearch := fun _ => none,
        llmText := fun _ => "Flamengo 2-1 Palmeiras last night.".toList }
      ["Flamengo".toList] 1 =
    _llm_fallback (fun _ => "Flamengo 2-1 Palmeiras last night.".toList)
      (recentResultsFallbackInstr ["Flamengo".toList] 1) :=
  (C4_fallback_chain
    { apiFootballFixtures := fun _ _ => none, ergastLastResults := none,
      webSearch := fun _ => none,
      llmText := fun _ => "Flamengo 2-1 Palmeiras last night.".toList }
    ["Flamengo".toList] 1 (fun _ _ => rfl) rfl (fun _ => rfl)).1

/-! ## Claims C1 and C9: task-node independence and synthesis purity -/

/-- A capability provider that echoes the first message's content back
    (requesting no tools), used to observe what each node's prompt contains. -/
def echoEnv : AgentEnv :=
  { llm := fun _ msgs => ⟨(msgs.headD (sysMsg [])).content, []⟩,
    toolExec := fun _ => sysMsg [] }

def c1Prefs : Preferences :=
  { teams := [], players := [], leagues := [], delivery_time := "07:00".toList,
    timezone := "UTC", user_id := "u1" }

def c1StateA : SportDigestState :=
  { messages := [], user_preferences := c1Prefs, schedule := none, scores := none,
    player_news := none, analysis := none, final_digest := none, tool_calls := [] }

def c1StateB : SportDigestState := { c1StateA with schedule := some "X".toList }

/-- C1 (counterexample): two initial states that agree everywhere except the
    `schedule` output slot — in particular on the user preferences and the
    `scores` slot — make the analysis node produce different outputs, because
    `analysis_agent` reads `state.get("schedule", "")` (and `"scores"`) into
    its prompt.  So not every Task Node is independent of the other nodes'
    output slots. -/
theorem C1_counterexample :
    c1StateA.user_preferences = c1StateB.user_preferences ∧
    c1StateA.scores = c1StateB.scores ∧
    c1StateA.messages = c1StateB.messages ∧
    c1StateA.player_news = c1StateB.player_news ∧
    c1StateA.analysis = c1StateB.analysis ∧
    c1StateA.final_digest = c1StateB.final_digest ∧
    c1StateA.tool_calls = c1StateB.tool_calls ∧
    analysis_agent echoEnv c1StateA ≠ analysis_agent echoEnv c1StateB := by
  refine ⟨rfl, rfl, rfl, rfl, rfl, rfl, rfl, ?_⟩
  decide

/-- C1 (amended): the schedule, scores and player nodes are independent of
    every other node's output slot — their partial updates depend only on the
    user preferences — while the analysis node depends only on the user
    preferences and the `schedule` and `scores` slots it reads into its
    prompt (slots that are still empty when the four nodes are started in
    parallel from the fan-out). -/
theorem C1_task_node_independence (env : AgentEnv) (s1 s2 : SportDigestState)
    (hp : s1.user_preferences = s2.user_preferences) :
    (schedule_agent env s1 = schedule_agent env s2 ∧
     scores_agent env s1 = scores_agent env s2 ∧
     player_agent env s1 = player_agent env s2) ∧
    (s1.schedule = s2.schedule → s1.scores = s2.scores →
      analysis_agent env s1 = analysis_agent env s2) := by
  obtain ⟨m1, p1, sch1, sc1, pn1, an1, fd1, tc1⟩ := s1
  obtain ⟨m2, p2, sch2, sc2, pn2, an2, fd2, tc2⟩ := s2
  cases hp
  refine ⟨⟨rfl, rfl, rfl⟩, ?_⟩
  intro hsch hsc
  cases hsch
  cases hsc
  rfl

/-- Witness for C1 at concrete states differing in `final_digest` only. -/
theorem C1_task_node_independence_witness :
    schedule_agent echoEnv c1StateA =
      schedule_agent echoEnv { c1StateA with final_digest := some "old".toList } ∧
    analysis_agent echoEnv c1StateA =
      analysis_agent echoEnv { c1StateA with final_digest := some "old".toList } :=
  ⟨(C1_task_node_independence echoEnv c1StateA
      { c1StateA with final_digest := some "old".toList } rfl).1.1,
   (C1_task_node_independence echoEnv c1StateA
      { c1StateA with final_digest := some "old".toList } rfl).2 rfl rfl⟩

/-- C9: the synthesis node is pure text composition: its update (and so
    `final_digest`) is a function of the user preferences and the four
    gathered output slots alone — it never invokes the capability provider or
    the tool dispatcher (any two environments give the same result), and
    equal inputs give an equal digest. -/
theorem C9_digest_agent_pure (env1 env2 : AgentEnv) (s1 s2 : SportDigestState)
    (hp : s1.user_preferences = s2.user_preferences)
    (hsch : s1.schedule = s2.schedule) (hsc : s1.scores = s2.scores)
    (hpn : s1.player_news = s2.player_news) (han : s1.analysis = s2.analysis) :
    digest_agent env1 s1 = digest_agent env2 s2 := by
  obtain ⟨m1, p1, sch1, sc1, pn1, an1, fd1, tc1⟩ := s1
  obtain ⟨m2, p2, sch2, sc2, pn2, an2, fd2, tc2⟩ := s2
  cases hp
  cases hsch
  cases hsc
  cases hpn
  cases han
  rfl

/-- Witness for C9: two different environments and two states that agree on
    the five read fields but differ in `messages` and `final_digest`. -/
theorem C9_digest_agent_pure_witness :
    digest_agent echoEnv c1StateB =
      digest_agent
        { llm := fun _ _ => sysMsg "other".toList, toolExec := fun _ => sysMsg [] }
        { c1StateB with messages := [sysMsg "m".toList],
                        final_digest := some "old".toList } :=
  C9_digest_agent_pure echoEnv
    { llm := fun _ _ => sysMsg "other".toList, toolExec := fun _ => sysMsg [] }
    c1StateB
    { c1StateB with messages := [sysMsg "m".toList], final_digest := some "old".toList }
    rfl rfl rfl rfl rfl
